import Mathlib

/-!
Verification of the core reward/penalty engine of the eth-rewards-calculator
repository (Go).  The Go sources are shallowly embedded: uint64 values become
`ℕ` with an explicit `% 2 ^ 64` wherever a Go operation can wrap, float64
values become `ℚ` (exact field arithmetic standing in for IEEE arithmetic),
and Go's `uint64(x)` conversion of a non-negative float becomes `Nat.floor`.

The one place the embedding cannot mirror the Go text verbatim is the seed of
`IntegerSquareRoot`: the Go code seeds Newton's method with
`uint64(math.Sqrt(float64(n)))`.  That seed is modelled exactly, over ℕ, as
`floatSeed`: round `n` to the nearest binary64 value (ties to even), take the
correctly rounded binary64 square root of that value, and truncate to an
integer.  The unbounded Go `for` loop becomes a fuel-based recursion
(`newtonIter`); the fuel supplied is provably sufficient because the iterate
strictly decreases.
-/

set_option maxHeartbeats 1000000

/-- Modulus of Go's `uint64` arithmetic. -/
def U64 : ℕ := 2 ^ 64

/-! ## Protocol constants — internal/config/constants.go -/

namespace config

def BASE_REWARD_FACTOR : ℕ := 64

def BASE_REWARDS_PER_EPOCH : ℕ := 4

def PROPOSER_REWARD_QUOTIENT : ℕ := 8

def WHISTLEBLOWER_REWARD_QUOTIENT : ℕ := 512

def MIN_SLASHING_PENALTY_QUOTIENT : ℕ := 128

def PROPORTIONAL_SLASHING_MULTIPLIER : ℕ := 1

def INACTIVITY_PENALTY_QUOTIENT_ALTAIR : ℕ := 50331648

def MIN_SLASHING_PENALTY_QUOTIENT_ALTAIR : ℕ := 64

def PROPORTIONAL_SLASHING_MULTIPLIER_ALTAIR : ℕ := 2

def INACTIVITY_PENALTY_QUOTIENT_BELLATRIX : ℕ := 33554432

def MIN_SLASHING_PENALTY_QUOTIENT_BELLATRIX : ℕ := 32

def PROPORTIONAL_SLASHING_MULTIPLIER_BELLATRIX : ℕ := 3

def INACTIVITY_PENALTY_QUOTIENT : ℕ := 67108864

def INACTIVITY_SCORE_BIAS : ℕ := 4

def TIMELY_SOURCE_WEIGHT : ℕ := 14

def TIMELY_TARGET_WEIGHT : ℕ := 26

def TIMELY_HEAD_WEIGHT : ℕ := 14

def SYNC_REWARD_WEIGHT : ℕ := 2

def PROPOSER_WEIGHT : ℕ := 8

def WEIGHT_DENOMINATOR : ℕ := 64

def SYNC_COMMITTEE_SIZE : ℕ := 512

def EFFECTIVE_BALANCE_INCREMENT : ℕ := 1000000000

def MAX_EFFECTIVE_BALANCE : ℕ := 32000000000

def SLOTS_PER_EPOCH : ℕ := 32

def EPOCHS_PER_YEAR : ℕ := 82180

def EPOCHS_PER_DAY : ℕ := 225

def MIN_ATTESTATION_INCLUSION_DELAY : ℕ := 1

def PHASE0_FORK_VERSION : String := "0x00000000"

def ALTAIR_FORK_VERSION : String := "0x01000000"

def BELLATRIX_FORK_VERSION : String := "0x02000000"

/-- Fork configuration record — internal/config/constants.go, `type ForkConfig`. -/
structure ForkConfig where
  Version : String
  InactivityPenaltyQuotient : ℕ
  MinSlashingPenaltyQuotient : ℕ
  ProportionalSlashingMultiplier : ℕ
deriving DecidableEq

/-- GetForkConfig — internal/config/constants.go.  The Go `default` branch
returns `GetForkConfig("bellatrix")`; that call is inlined here (it is the
same record as the `"bellatrix"` case). -/
def GetForkConfig (fork : String) : ForkConfig :=
  if fork = "phase0" then
    { Version := PHASE0_FORK_VERSION
      InactivityPenaltyQuotient := INACTIVITY_PENALTY_QUOTIENT
      MinSlashingPenaltyQuotient := MIN_SLASHING_PENALTY_QUOTIENT
      ProportionalSlashingMultiplier := PROPORTIONAL_SLASHING_MULTIPLIER }
  else if fork = "altair" then
    { Version := ALTAIR_FORK_VERSION
      InactivityPenaltyQuotient := INACTIVITY_PENALTY_QUOTIENT_ALTAIR
      MinSlashingPenaltyQuotient := MIN_SLASHING_PENALTY_QUOTIENT_ALTAIR
      ProportionalSlashingMultiplier := PROPORTIONAL_SLASHING_MULTIPLIER_ALTAIR }
  else if fork = "bellatrix" ∨ fork = "merge" then
    { Version := BELLATRIX_FORK_VERSION
      InactivityPenaltyQuotient := INACTIVITY_PENALTY_QUOTIENT_BELLATRIX
      MinSlashingPenaltyQuotient := MIN_SLASHING_PENALTY_QUOTIENT_BELLATRIX
      ProportionalSlashingMultiplier := PROPORTIONAL_SLASHING_MULTIPLIER_BELLATRIX }
  else
    { Version := BELLATRIX_FORK_VERSION
      InactivityPenaltyQuotient := INACTIVITY_PENALTY_QUOTIENT_BELLATRIX
      MinSlashingPenaltyQuotient := MIN_SLASHING_PENALTY_QUOTIENT_BELLATRIX
      ProportionalSlashingMultiplier := PROPORTIONAL_SLASHING_MULTIPLIER_BELLATRIX }

end config

/-! ## Data model — internal/types (Validator, NetworkState, result records) -/

namespace types

/-- Validator — internal/types.  The byte-array identity fields (pubkey,
withdrawal credentials) play no role in any computation and are omitted. -/
structure Validator where
  EffectiveBalance : ℕ
  Slashed : Bool
  ActivationEligibilityEpoch : ℕ
  ActivationEpoch : ℕ
  ExitEpoch : ℕ
  WithdrawableEpoch : ℕ
  InactivityScore : ℕ
deriving DecidableEq

/-- Go zero value of `Validator`, used to totalise list indexing. -/
def defaultValidator : Validator :=
  { EffectiveBalance := 0, Slashed := false, ActivationEligibilityEpoch := 0
    ActivationEpoch := 0, ExitEpoch := 0, WithdrawableEpoch := 0, InactivityScore := 0 }

/-- NetworkState — internal/types. -/
structure NetworkState where
  Validators : List Validator
  TotalActiveBalance : ℕ
  CurrentEpoch : ℕ
  FinalizedEpoch : ℕ
  JustifiedEpoch : ℕ
  CurrentFork : String
  SlashingsPerEpoch : List ℕ
deriving DecidableEq

/-- RewardResults — internal/types, including the participation-economics and
attestation-inclusion fields that the current `CalculateRewards` populates
(the CLI reads them, e.g. `results.BaseAPY`). -/
structure RewardResults where
  ValidatorCount : ℕ
  TotalStaked : ℕ
  ParticipationRate : ℚ
  SqrtTotalBalance : ℕ
  BaseRewardPerEpoch : ℕ
  SourceReward : ℕ
  TargetReward : ℕ
  HeadReward : ℕ
  AttestationRewardPerEpoch : ℕ
  ProposerProbability : ℚ
  ExpectedProposalsPerYear : ℚ
  AvgProposerRewardPerBlock : ℚ
  ProposerRewardPerEpoch : ℚ
  EstimatedAttestationsPerBlock : ℚ
  AttestationInclusionReward : ℕ
  InclusionEffectivenessRate : ℚ
  AttestationRewardsAnnual : ℚ
  ProposerRewardsAnnual : ℚ
  TotalAnnualRewards : ℚ
  APY : ℚ
  DailyRewards : ℚ
  WeeklyRewards : ℚ
  MonthlyRewards : ℚ
  ParticipationMultiplier : ℚ
  BaseAPY : ℚ
  EffectiveAPY : ℚ
  InactivityLeakActive : Bool
  NetworkHealthWarning : String

/-- SlashingResults — internal/types. -/
structure SlashingResults where
  InitialPenalty : ℕ
  ProportionalPenalty : ℕ
  TotalPenalty : ℕ
  PercentageOfStake : ℚ
  WhistleblowerReward : ℕ
  ProposerReward : ℕ

end types

/-! ## Integer square root — internal/calculator, `IntegerSquareRoot` -/

namespace calculator

/-- One-or-more steps of the Go Newton loop

```
for {
    x1 := (x + n/x) / 2
    if x1 >= x { return x }
    x = x1
}
```

as a fuel-based recursion (the Go loop is unbounded; the iterate strictly
decreases, so any fuel larger than the initial `x` is enough).  The addition
is a Go uint64 addition, hence the `% U64`. -/
def newtonIter (n : ℕ) : ℕ → ℕ → ℕ
  | 0, x => x
  | fuel + 1, x =>
    let x1 := (x + n / x) % U64 / 2
    if x ≤ x1 then x else newtonIter n fuel x1

/-- Fuel-based binary logarithm (kernel-computable mirror of `Nat.log2`,
whose well-founded recursion the kernel cannot reduce). -/
def log2Iter : ℕ → ℕ → ℕ
  | 0, _ => 0
  | fuel + 1, n => if 2 ≤ n then log2Iter fuel (n / 2) + 1 else 0

/-- Kernel-computable binary logarithm; proven equal to `Nat.log2`. -/
def log2Model (n : ℕ) : ℕ := log2Iter n n

/-- Fuel-based pure Newton floor-square-root iteration (no uint64 wrap; used
only inside the model of the IEEE square root, where values exceed 2^64). -/
def sqrtIter (n : ℕ) : ℕ → ℕ → ℕ
  | 0, x => x
  | fuel + 1, x =>
    let x1 := (x + n / x) / 2
    if x ≤ x1 then x else sqrtIter n fuel x1

/-- Kernel-computable floor square root; proven equal to `Nat.sqrt`. -/
def sqrtModel (n : ℕ) : ℕ := if n = 0 then 0 else sqrtIter n (n + 1) n

/-- Exponent of the unit in the last place of the binary64 value nearest to
`n` (for `n < 2 ^ 53` every integer is exactly representable). -/
def ulpExp (n : ℕ) : ℕ := if n < 2 ^ 53 then 0 else log2Model n - 52

/-- Round `n / d` to the nearest integer, ties to even (`d` a power of two). -/
def roundNearestEven (n d : ℕ) : ℕ :=
  if d < 2 * (n % d) ∨ (2 * (n % d) = d ∧ (n / d) % 2 = 1) then n / d + 1 else n / d

/-- The binary64 value nearest to the integer `n` (round to nearest, ties to
even) — the exact value of Go's `float64(n)` for `n < 2 ^ 64`. -/
def floatRound (n : ℕ) : ℕ := roundNearestEven n (2 ^ ulpExp n) * 2 ^ ulpExp n

/-- Truncation to an integer of the correctly rounded binary64 square root of
the (exactly representable) value `f` — the exact value of Go's
`uint64(math.Sqrt(x))` for a float64 `x` holding the integer `f ≤ 2 ^ 64`.
The square root of `f` lies in binade `[2 ^ e, 2 ^ (e + 1))`, where floats
have spacing `2 ^ (e - 52)`; the nearest float is `m * 2 ^ (e - 52)` with `m`
the nearest integer to `sqrt (f * 2 ^ (104 - 2 * e))` (no ties can occur:
that square root is never a half-integer). -/
def floatSqrtFloor (f : ℕ) : ℕ :=
  let e := log2Model f / 2
  let N := f * 2 ^ (104 - 2 * e)
  let s := sqrtModel N
  let m := if N ≤ s * s + s then s else s + 1
  m / 2 ^ (52 - e)

/-- The exact value of the Go seed `uint64(math.Sqrt(float64(n)))`. -/
def floatSeed (n : ℕ) : ℕ := if n = 0 then 0 else floatSqrtFloor (floatRound n)

/-- IntegerSquareRoot — internal/calculator.  Guard `n == 0`, then Newton's
method from the float-derived seed. -/
def IntegerSquareRoot (n : ℕ) : ℕ :=
  if n = 0 then 0 else newtonIter n (floatSeed n + 1) (floatSeed n)

end calculator

/-! ## Correctness of `IntegerSquareRoot` -/

namespace calculator

/-- Integer AM-GM: one Newton step from any positive `x` stays at or above
`2 * Nat.sqrt n` before halving. -/
lemma two_sqrt_le (n x : ℕ) (hx : 0 < x) : 2 * Nat.sqrt n ≤ x + n / x := by
  by_contra hcon
  push_neg at hcon
  have hs : Nat.sqrt n * Nat.sqrt n ≤ n := Nat.sqrt_le n
  have hmod : x * (n / x) + n % x = n := Nat.div_add_mod n x
  have hr : n % x < x := Nat.mod_lt _ hx
  zify at hs hmod hr hcon
  nlinarith [sq_nonneg ((Nat.sqrt n : ℤ) - (x : ℤ)), hcon, hs, hmod, hr]

/-- The quotient `n / x` is at most `Nat.sqrt n + 2` once `x ≥ Nat.sqrt n`. -/
lemma div_le_sqrt_add_two (n x : ℕ) (hn : 0 < n) (hsx : Nat.sqrt n ≤ x) :
    n / x ≤ Nat.sqrt n + 2 := by
  have hspos : 0 < Nat.sqrt n := Nat.sqrt_pos.mpr hn
  have h1 : n / x ≤ n / Nat.sqrt n := Nat.div_le_div_left hsx hspos
  have hub : n ≤ Nat.sqrt n * (Nat.sqrt n + 2) := by
    nlinarith [Nat.lt_succ_sqrt n]
  have h2 : n / Nat.sqrt n ≤ Nat.sqrt n + 2 := by
    calc n / Nat.sqrt n ≤ Nat.sqrt n * (Nat.sqrt n + 2) / Nat.sqrt n :=
          Nat.div_le_div_right hub
      _ = Nat.sqrt n + 2 := Nat.mul_div_cancel_left _ hspos
  omega

/-- The pure fuel-based Newton iteration computes the floor square root from
any starting point at or above it. -/
lemma sqrtIter_eq_sqrt (n : ℕ) (hn : 0 < n) :
    ∀ fuel x, Nat.sqrt n ≤ x → x < fuel → sqrtIter n fuel x = Nat.sqrt n := by
  intro fuel
  induction fuel with
  | zero => intro x _ h; omega
  | succ fuel ih =>
    intro x hsx hxf
    have hspos : 0 < Nat.sqrt n := Nat.sqrt_pos.mpr hn
    have hx : 0 < x := lt_of_lt_of_le hspos hsx
    simp only [sqrtIter]
    by_cases hif : x ≤ (x + n / x) / 2
    · rw [if_pos hif]
      by_contra hne
      have hgt : Nat.sqrt n < x := lt_of_le_of_ne hsx (fun h => hne h.symm)
      have hq2 : n / x ≤ Nat.sqrt n := by
        have h1 : n / x ≤ n / (Nat.sqrt n + 1) := Nat.div_le_div_left hgt (Nat.succ_pos _)
        have h2 : n / (Nat.sqrt n + 1) < Nat.sqrt n + 1 := by
          rw [Nat.div_lt_iff_lt_mul (Nat.succ_pos _)]
          exact Nat.lt_succ_sqrt n
        omega
      have hlt : (x + n / x) / 2 < x := by
        rw [Nat.div_lt_iff_lt_mul (by norm_num : (0:ℕ) < 2)]
        omega
      omega
    · rw [if_neg hif]
      push_neg at hif
      have hge : Nat.sqrt n ≤ (x + n / x) / 2 := by
        rw [Nat.le_div_iff_mul_le (by norm_num : (0:ℕ) < 2)]
        have := two_sqrt_le n x hx
        omega
      exact ih _ hge (by omega)

/-- The kernel-computable square root agrees with `Nat.sqrt`. -/
lemma sqrtModel_eq (n : ℕ) : sqrtModel n = Nat.sqrt n := by
  rw [sqrtModel]
  split
  · rename_i h
    rw [h, Nat.sqrt_zero]
  · rename_i h
    have hn : 0 < n := Nat.pos_of_ne_zero h
    exact sqrtIter_eq_sqrt n hn (n + 1) n (Nat.sqrt_le_self n) (Nat.lt_succ_self n)

/-- The Newton loop, started at or above `Nat.sqrt n` (and low enough that the
uint64 addition cannot wrap), terminates with exactly `Nat.sqrt n`. -/
lemma newtonIter_eq_sqrt (n : ℕ) (hn : 0 < n) (hn64 : n ≤ 2 ^ 64) :
    ∀ fuel x, Nat.sqrt n ≤ x → x ≤ 2 ^ 34 → x < fuel →
      newtonIter n fuel x = Nat.sqrt n := by
  have hsqrt32 : Nat.sqrt n ≤ 2 ^ 32 := by
    have h1 : Nat.sqrt n ≤ Nat.sqrt (2 ^ 64) := Nat.sqrt_le_sqrt hn64
    have h2 : (2 ^ 64 : ℕ) = 2 ^ 32 * 2 ^ 32 := by norm_num
    rw [h2, Nat.sqrt_eq] at h1
    exact h1
  intro fuel
  induction fuel with
  | zero => intro x _ _ h; omega
  | succ fuel ih =>
    intro x hsx hxB hxf
    have hspos : 0 < Nat.sqrt n := Nat.sqrt_pos.mpr hn
    have hx : 0 < x := lt_of_lt_of_le hspos hsx
    have hq : n / x ≤ 2 ^ 32 + 2 := by
      have := div_le_sqrt_add_two n x hn hsx
      omega
    have hsum : x + n / x < U64 := by
      have hB : (2 : ℕ) ^ 34 + (2 ^ 32 + 2) < 2 ^ 64 := by norm_num
      have : U64 = 2 ^ 64 := rfl
      omega
    have hmodeq : (x + n / x) % U64 = x + n / x := Nat.mod_eq_of_lt hsum
    simp only [newtonIter, hmodeq]
    by_cases hif : x ≤ (x + n / x) / 2
    · rw [if_pos hif]
      -- the loop is about to return x; show x cannot exceed the root
      by_contra hne
      have hgt : Nat.sqrt n < x := lt_of_le_of_ne hsx (fun h => hne h.symm)
      have hq2 : n / x ≤ Nat.sqrt n := by
        have h1 : n / x ≤ n / (Nat.sqrt n + 1) := Nat.div_le_div_left hgt (Nat.succ_pos _)
        have h2 : n / (Nat.sqrt n + 1) < Nat.sqrt n + 1 := by
          rw [Nat.div_lt_iff_lt_mul (Nat.succ_pos _)]
          exact Nat.lt_succ_sqrt n
        omega
      have hlt : (x + n / x) / 2 < x := by
        rw [Nat.div_lt_iff_lt_mul (by norm_num : (0:ℕ) < 2)]
        omega
      omega
    · rw [if_neg hif]
      push_neg at hif
      have hge : Nat.sqrt n ≤ (x + n / x) / 2 := by
        rw [Nat.le_div_iff_mul_le (by norm_num : (0:ℕ) < 2)]
        have := two_sqrt_le n x hx
        omega
      exact ih _ hge (by omega) (by omega)

end calculator

namespace calculator

/-- Monotone upper bound on the binary logarithm. -/
lemma log2_le_of_le {n m : ℕ} (hn : n ≠ 0) (h : n ≤ 2 ^ m) : Nat.log2 n ≤ m := by
  have h1 : 2 ^ Nat.log2 n ≤ 2 ^ m := le_trans (Nat.log2_self_le hn) h
  exact (Nat.pow_le_pow_iff_right (by norm_num)).mp h1

/-- Monotone lower bound on the binary logarithm. -/
lemma le_log2_of_le {n m : ℕ} (h : 2 ^ m ≤ n) : m ≤ Nat.log2 n := by
  have h1 : (2:ℕ) ^ m < 2 ^ (Nat.log2 n + 1) := lt_of_le_of_lt h Nat.lt_log2_self
  have := (Nat.pow_lt_pow_iff_right (by norm_num : 1 < 2)).mp h1
  omega

/-- The fuel-based logarithm brackets its argument between powers of two. -/
lemma log2Iter_bracket : ∀ fuel n, 0 < n → n ≤ fuel →
    2 ^ log2Iter fuel n ≤ n ∧ n < 2 ^ (log2Iter fuel n + 1) := by
  intro fuel
  induction fuel with
  | zero => intro n hn hf; omega
  | succ fuel ih =>
    intro n hn hf
    simp only [log2Iter]
    split
    · rename_i h2
      have hdiv : 0 < n / 2 := Nat.div_pos h2 (by norm_num)
      have hfd : n / 2 ≤ fuel := by omega
      obtain ⟨h1, h2x⟩ := ih (n / 2) hdiv hfd
      constructor
      · have hp : (2:ℕ) ^ (log2Iter fuel (n / 2) + 1) = 2 * 2 ^ log2Iter fuel (n / 2) := by
          ring
        rw [hp]
        omega
      · have hp : (2:ℕ) ^ (log2Iter fuel (n / 2) + 1 + 1) =
            2 * 2 ^ (log2Iter fuel (n / 2) + 1) := by
          ring
        rw [hp]
        omega
    · rename_i h2
      have hn1 : n = 1 := by omega
      subst hn1
      norm_num

/-- The kernel-computable logarithm agrees with `Nat.log2`. -/
lemma log2Model_eq (n : ℕ) : log2Model n = Nat.log2 n := by
  rcases Nat.eq_zero_or_pos n with rfl | hn
  · have h2 : Nat.log2 0 = 0 := by simp [Nat.log2]
    rw [h2]
    rfl
  · obtain ⟨hlo, hhi⟩ := log2Iter_bracket n n hn le_rfl
    have h1 : log2Model n ≤ Nat.log2 n := le_log2_of_le hlo
    have h2 : Nat.log2 n ≤ log2Model n := by
      have hx : (2:ℕ) ^ Nat.log2 n ≤ n := Nat.log2_self_le (by omega)
      have hlt : (2:ℕ) ^ Nat.log2 n < 2 ^ (log2Model n + 1) := lt_of_le_of_lt hx hhi
      have := (Nat.pow_lt_pow_iff_right (by norm_num : 1 < 2)).mp hlt
      omega
    omega

/-- Integers below `2 ^ 53` are exactly representable in binary64. -/
lemma floatRound_small {n : ℕ} (h : n < 2 ^ 53) : floatRound n = n := by
  have hupe : ulpExp n = 0 := by rw [ulpExp, if_pos h]
  rw [floatRound, hupe, roundNearestEven]
  norm_num
  omega

/-- Rounding error bound: `float64(n)` is within half an ulp below `n`. -/
lemma le_floatRound_add {n : ℕ} (h : 2 ^ 53 ≤ n) :
    n ≤ floatRound n + 2 ^ (Nat.log2 n - 53) := by
  have hk : 53 ≤ Nat.log2 n := le_log2_of_le h
  have hupe : ulpExp n = Nat.log2 n - 52 := by
    rw [ulpExp, if_neg (not_lt.mpr h), log2Model_eq]
  set k := Nat.log2 n with hk_def
  have hu2 : (2:ℕ) ^ (k - 52) = 2 * 2 ^ (k - 53) := by
    rw [← pow_succ']
    congr 1
    omega
  rw [floatRound, hupe, roundNearestEven]
  set u := (2:ℕ) ^ (k - 52) with hu_def
  have hupos : 0 < u := pow_pos (by norm_num) _
  set q := n / u with hq_def
  set r := n % u with hr_def
  have hdm : u * q + r = n := Nat.div_add_mod n u
  have hr : r < u := Nat.mod_lt _ hupos
  split
  · -- rounded up: the rounded value is at least n
    have hmul : (q + 1) * u = q * u + u := by ring
    rw [hmul]
    linarith
  · -- rounded down: the discarded remainder is at most half an ulp
    rename_i hcond
    push_neg at hcond
    have h2r : 2 * r ≤ u := hcond.1
    linarith

/-- `float64(n)` never drops below the power of two below `n`. -/
lemma pow_log2_le_floatRound {n : ℕ} (h : 2 ^ 53 ≤ n) :
    2 ^ Nat.log2 n ≤ floatRound n := by
  have hk : 53 ≤ Nat.log2 n := le_log2_of_le h
  have hupe : ulpExp n = Nat.log2 n - 52 := by
    rw [ulpExp, if_neg (not_lt.mpr h), log2Model_eq]
  set k := Nat.log2 n with hk_def
  rw [floatRound, hupe, roundNearestEven]
  set u := (2:ℕ) ^ (k - 52) with hu_def
  set q := n / u with hq_def
  have hq : 2 ^ 52 ≤ q := by
    have h1 : (2:ℕ) ^ k / u ≤ n / u := Nat.div_le_div_right (Nat.log2_self_le (by positivity))
    have h2 : (2:ℕ) ^ k / u = 2 ^ 52 := by
      rw [hu_def, Nat.pow_div (by omega) (by norm_num)]
      congr 1
      omega
    omega
  have hku : (2:ℕ) ^ 52 * u = 2 ^ k := by
    rw [hu_def, ← pow_add]
    congr 1
    omega
  have hbase : 2 ^ 52 * u ≤ q * u := mul_le_mul_right' hq u
  split
  · have hmul : (q + 1) * u = q * u + u := by ring
    rw [hmul]
    linarith
  · linarith

/-- `float64(n)` stays at or below `2 ^ 64` for `n < 2 ^ 64`. -/
lemma floatRound_le {n : ℕ} (h53 : 2 ^ 53 ≤ n) (h64 : n < 2 ^ 64) :
    floatRound n ≤ 2 ^ 64 := by
  have hk : 53 ≤ Nat.log2 n := le_log2_of_le h53
  have hk63 : Nat.log2 n ≤ 63 := by
    have h1 : 2 ^ Nat.log2 n ≤ n := Nat.log2_self_le (by positivity)
    have h2 : (2:ℕ) ^ Nat.log2 n < 2 ^ 64 := lt_of_le_of_lt h1 h64
    have := (Nat.pow_lt_pow_iff_right (by norm_num : 1 < 2)).mp h2
    omega
  have hupe : ulpExp n = Nat.log2 n - 52 := by
    rw [ulpExp, if_neg (not_lt.mpr h53), log2Model_eq]
  set k := Nat.log2 n with hk_def
  rw [floatRound, hupe, roundNearestEven]
  set u := (2:ℕ) ^ (k - 52) with hu_def
  have hupos : 0 < u := pow_pos (by norm_num) _
  set q := n / u with hq_def
  have hsplit : (2:ℕ) ^ (116 - k) * u = 2 ^ 64 := by
    rw [hu_def, ← pow_add]
    congr 1
    omega
  have hqlt : q < 2 ^ (116 - k) := by
    rw [hq_def, Nat.div_lt_iff_lt_mul hupos, hsplit]
    exact h64
  split
  · calc (q + 1) * u ≤ 2 ^ (116 - k) * u := mul_le_mul_right' hqlt u
      _ = 2 ^ 64 := hsplit
  · have : q * u ≤ n := Nat.div_mul_le_self n u
    omega

end calculator

namespace calculator

/-- Rounding the true square root of `N` to the nearest integer (the `m` of
`floatSqrtFloor`) cannot fall below `T` once `N` exceeds `T * T - T`. -/
lemma round_sqrt_ge {N T : ℕ} (hT : 0 < T) (h : T * T < N + T) :
    T ≤ if N ≤ Nat.sqrt N * Nat.sqrt N + Nat.sqrt N then Nat.sqrt N else Nat.sqrt N + 1 := by
  obtain ⟨T1, rfl⟩ : ∃ T1, T = T1 + 1 := ⟨T - 1, by omega⟩
  have hT1 : T1 * T1 + T1 < N := by nlinarith
  have h1 : T1 ≤ Nat.sqrt N := Nat.le_sqrt.mpr (by nlinarith)
  rcases le_or_lt (T1 + 1) (Nat.sqrt N) with hc | hc
  · split <;> omega
  · have hsn : Nat.sqrt N = T1 := by omega
    rw [if_neg]
    · omega
    · rw [hsn]
      omega

/-- Core rounding-error analysis: truncating the correctly rounded binary64
square root of `float64(n)` never falls below `Nat.sqrt n`. -/
lemma sqrt_le_floatSqrtFloor {n : ℕ} (hn : 0 < n) (hn64 : n < 2 ^ 64) :
    Nat.sqrt n ≤ floatSqrtFloor (floatRound n) := by
  set s := Nat.sqrt n with hs_def
  have hspos : 0 < s := Nat.sqrt_pos.mpr hn
  set f := floatRound n with hf_def
  have hf_facts : 0 < f ∧ f ≤ 2 ^ 64 := by
    rcases lt_or_le n (2 ^ 53) with hsm | hbg
    · rw [hf_def, floatRound_small hsm]
      constructor
      · exact hn
      · have : (2:ℕ) ^ 53 ≤ 2 ^ 64 := by norm_num
        omega
    · refine ⟨lt_of_lt_of_le (pow_pos (by norm_num : (0:ℕ) < 2) (Nat.log2 n)) ?_, floatRound_le hbg hn64⟩
      exact pow_log2_le_floatRound hbg
  obtain ⟨hfpos, hf64⟩ := hf_facts
  set j := Nat.log2 f with hj_def
  set e := j / 2 with he_def
  have hj64 : j ≤ 64 := log2_le_of_le (by omega) hf64
  have he32 : e ≤ 32 := by omega
  have h2j : 2 ^ j ≤ f := Nat.log2_self_le (by omega)
  have hje : j ≤ 2 * e + 1 := by omega
  -- the key inequality: (s * 2^(52-e))² < f * 2^(104-2e) + s * 2^(52-e)
  have hkey : s * s * 2 ^ (104 - 2 * e) < f * 2 ^ (104 - 2 * e) + s * 2 ^ (52 - e) := by
    have hTpos : 0 < s * 2 ^ (52 - e) := by positivity
    rcases le_or_lt (s * s) f with hssf | hfss
    · have h1 : s * s * 2 ^ (104 - 2 * e) ≤ f * 2 ^ (104 - 2 * e) :=
        mul_le_mul_right' hssf _
      omega
    · -- f < s * s forces n ≥ 2^53 (small n are exactly representable)
      have hbig : 2 ^ 53 ≤ n := by
        by_contra hsmall
        push_neg at hsmall
        have hfn : f = n := by rw [hf_def, floatRound_small hsmall]
        have : s * s ≤ f := by rw [hfn, hs_def]; exact Nat.sqrt_le n
        omega
      set k := Nat.log2 n with hk_def
      have hk53 : 53 ≤ k := le_log2_of_le hbig
      have hnle : n ≤ f + 2 ^ (k - 53) := le_floatRound_add hbig
      have h2kf : 2 ^ k ≤ f := pow_log2_le_floatRound hbig
      have hkj : k ≤ j := le_log2_of_le h2kf
      have hsn : s * s ≤ n := Nat.sqrt_le n
      set d := s * s - f with hd_def
      have hfd : f + d = s * s := by omega
      have hdk : d ≤ 2 ^ (k - 53) := by omega
      have hse : 2 ^ e < s := by
        have h2e : (2:ℕ) ^ (2 * e) ≤ 2 ^ j := Nat.pow_le_pow_right (by norm_num) (by omega)
        have hee : (2:ℕ) ^ e * 2 ^ e = 2 ^ (2 * e) := by
          rw [← pow_add]
          congr 1
          omega
        nlinarith
      have hchain : d * 2 ^ (52 - e) ≤ 2 ^ e := by
        calc d * 2 ^ (52 - e) ≤ 2 ^ (k - 53) * 2 ^ (52 - e) := mul_le_mul_right' hdk _
          _ = 2 ^ (k - 53 + (52 - e)) := (pow_add 2 _ _).symm
          _ ≤ 2 ^ e := Nat.pow_le_pow_right (by norm_num) (by omega)
      have hds : d * 2 ^ (52 - e) < s := lt_of_le_of_lt hchain hse
      have hdd : d * 2 ^ (104 - 2 * e) < s * 2 ^ (52 - e) := by
        have hsplit : d * 2 ^ (104 - 2 * e) = d * 2 ^ (52 - e) * 2 ^ (52 - e) := by
          rw [mul_assoc, ← pow_add]
          congr 2
          omega
        rw [hsplit]
        exact mul_lt_mul_of_pos_right hds (pow_pos (by norm_num) _)
      have hexpand : (f + d) * 2 ^ (104 - 2 * e) = f * 2 ^ (104 - 2 * e) + d * 2 ^ (104 - 2 * e) := by
        ring
      calc s * s * 2 ^ (104 - 2 * e) = (f + d) * 2 ^ (104 - 2 * e) := by rw [hfd]
        _ = f * 2 ^ (104 - 2 * e) + d * 2 ^ (104 - 2 * e) := hexpand
        _ < f * 2 ^ (104 - 2 * e) + s * 2 ^ (52 - e) := by omega
  -- pass from the key inequality to the rounded mantissa and truncate
  have hTT : s * 2 ^ (52 - e) * (s * 2 ^ (52 - e)) = s * s * 2 ^ (104 - 2 * e) := by
    have hexp : 52 - e + (52 - e) = 104 - 2 * e := by omega
    calc s * 2 ^ (52 - e) * (s * 2 ^ (52 - e)) = s * s * (2 ^ (52 - e) * 2 ^ (52 - e)) := by ring
      _ = s * s * 2 ^ (52 - e + (52 - e)) := by rw [pow_add]
      _ = s * s * 2 ^ (104 - 2 * e) := by rw [hexp]
  have hround := round_sqrt_ge (N := f * 2 ^ (104 - 2 * e)) (T := s * 2 ^ (52 - e))
    (by positivity) (by omega)
  rw [floatSqrtFloor, log2Model_eq, sqrtModel_eq]
  rw [← hj_def, ← he_def]
  rw [Nat.le_div_iff_mul_le (pow_pos (by norm_num) (52 - e))]
  exact hround

/-- The truncated float seed is comfortably below the loop bound `2 ^ 34`. -/
lemma floatSeed_le {n : ℕ} (hn64 : n < 2 ^ 64) : floatSeed n ≤ 2 ^ 34 := by
  rw [floatSeed]
  split
  · positivity
  · rename_i hne
    have hn : 0 < n := Nat.pos_of_ne_zero hne
    set f := floatRound n with hf_def
    have hf_facts : 0 < f ∧ f ≤ 2 ^ 64 := by
      rcases lt_or_le n (2 ^ 53) with hsm | hbg
      · rw [hf_def, floatRound_small hsm]
        constructor
        · exact hn
        · have : (2:ℕ) ^ 53 ≤ 2 ^ 64 := by norm_num
          omega
      · refine ⟨lt_of_lt_of_le (pow_pos (by norm_num : (0:ℕ) < 2) (Nat.log2 n)) ?_, floatRound_le hbg hn64⟩
        exact pow_log2_le_floatRound hbg
    obtain ⟨hfpos, hf64⟩ := hf_facts
    rw [floatSqrtFloor, log2Model_eq, sqrtModel_eq]
    set j := Nat.log2 f with hj_def
    set e := j / 2 with he_def
    have hj64 : j ≤ 64 := log2_le_of_le (by omega) hf64
    have he32 : e ≤ 32 := by omega
    have hN : f * 2 ^ (104 - 2 * e) < 2 ^ 106 := by
      have h1 : f < 2 ^ (j + 1) := Nat.lt_log2_self
      have h2 : f * 2 ^ (104 - 2 * e) < 2 ^ (j + 1) * 2 ^ (104 - 2 * e) :=
        mul_lt_mul_of_pos_right h1 (pow_pos (by norm_num) _)
      have h3 : (2:ℕ) ^ (j + 1) * 2 ^ (104 - 2 * e) = 2 ^ (j + 1 + (104 - 2 * e)) :=
        (pow_add 2 _ _).symm
      have h4 : (2:ℕ) ^ (j + 1 + (104 - 2 * e)) ≤ 2 ^ 106 :=
        Nat.pow_le_pow_right (by norm_num) (by omega)
      omega
    have hsN : Nat.sqrt (f * 2 ^ (104 - 2 * e)) ≤ 2 ^ 53 := by
      have h1 := Nat.sqrt_le_sqrt (le_of_lt hN)
      have h2 : (2:ℕ) ^ 106 = 2 ^ 53 * 2 ^ 53 := by norm_num
      rw [h2, Nat.sqrt_eq] at h1
      exact h1
    have h20 : (2:ℕ) ^ 20 ≤ 2 ^ (52 - e) := Nat.pow_le_pow_right (by norm_num) (by omega)
    set sN := Nat.sqrt (f * 2 ^ (104 - 2 * e)) with hsN_def
    have hm : (if f * 2 ^ (104 - 2 * e) ≤ sN * sN + sN then sN else sN + 1) ≤ 2 ^ 53 + 1 := by
      split <;> omega
    calc (if f * 2 ^ (104 - 2 * e) ≤ sN * sN + sN then sN else sN + 1) / 2 ^ (52 - e)
        ≤ (2 ^ 53 + 1) / 2 ^ (52 - e) := Nat.div_le_div_right hm
      _ ≤ (2 ^ 53 + 1) / 2 ^ 20 := Nat.div_le_div_left h20 (pow_pos (by norm_num) 20)
      _ ≤ 2 ^ 34 := by norm_num

/-- IntegerSquareRoot computes the exact floor square root on the whole uint64
domain: the Go float seed provably never falls below `Nat.sqrt n`, and from
any such seed the integer Newton loop terminates at `Nat.sqrt n`. -/
theorem IntegerSquareRoot_eq {n : ℕ} (hn64 : n < 2 ^ 64) :
    IntegerSquareRoot n = Nat.sqrt n := by
  rw [IntegerSquareRoot]
  split
  · rename_i h
    rw [h, Nat.sqrt_zero]
  · rename_i hne
    have hn : 0 < n := Nat.pos_of_ne_zero hne
    have hseed : Nat.sqrt n ≤ floatSeed n := by
      rw [floatSeed, if_neg hne]
      exact sqrt_le_floatSqrtFloor hn hn64
    exact newtonIter_eq_sqrt n hn (le_of_lt hn64) _ _ hseed (floatSeed_le hn64)
      (Nat.lt_succ_self _)

end calculator

/-! ## Reward engine — internal/calculator (current, post-upgrade variant) -/

namespace calculator

/-- GetBaseReward — internal/calculator (Electra formula, no division by
`BASE_REWARDS_PER_EPOCH`).  List indexing is totalised with the Go zero
value; every theorem about it quantifies only over valid indices. -/
def GetBaseReward (state : types.NetworkState) (validatorIndex : ℕ) : ℕ :=
  let totalBalance := state.TotalActiveBalance
  let effectiveBalance :=
    (state.Validators.getD validatorIndex types.defaultValidator).EffectiveBalance
  effectiveBalance * config.BASE_REWARD_FACTOR % U64 / IntegerSquareRoot totalBalance

/-- GetBaseRewardPerIncrement — internal/calculator (Electra formula). -/
def GetBaseRewardPerIncrement (state : types.NetworkState) : ℕ :=
  config.EFFECTIVE_BALANCE_INCREMENT * config.BASE_REWARD_FACTOR % U64 /
    IntegerSquareRoot state.TotalActiveBalance

/-- EstimateAttestationsPerBlock — internal/calculator. -/
def EstimateAttestationsPerBlock (state : types.NetworkState) : ℚ :=
  let validatorCount : ℚ := (state.Validators.length : ℚ)
  let maxIncludableRate : ℚ := 0.6
  let attestationsPerSlot := validatorCount / (config.SLOTS_PER_EPOCH : ℚ)
  let slotsToInclude : ℚ := 8
  attestationsPerSlot * slotsToInclude * maxIncludableRate

/-- CalculateAttestationInclusionReward — internal/calculator.  Go's
`uint64(float)` conversion of the non-negative attestation count becomes
`Nat.floor`. -/
def CalculateAttestationInclusionReward (state : types.NetworkState)
    (participationRate : ℚ) : ℕ :=
  let baseRewardIncrement := GetBaseRewardPerIncrement state
  let estimatedAttestations := EstimateAttestationsPerBlock state
  let avgComponentsPerAttestation : ℚ := 2.8
  let effectiveAttestations := estimatedAttestations * participationRate
  let inclusionEffectiveness : ℚ := 0.9
  let finalAttestations := effectiveAttestations * inclusionEffectiveness
  let proposerRewardPerComponent := baseRewardIncrement / config.PROPOSER_REWARD_QUOTIENT
  Nat.floor (finalAttestations * avgComponentsPerAttestation) *
    proposerRewardPerComponent % U64

/-- CalculateInclusionEffectivenessRate — internal/calculator. -/
def CalculateInclusionEffectivenessRate (participationRate : ℚ) : ℚ :=
  let baseEffectiveness : ℚ := 0.9
  let participationAdjustment := 0.95 + (participationRate - 0.95) * 0.5
  baseEffectiveness * participationAdjustment

/-- CalculateRewards — internal/calculator, the current variant with
participation economics (inverse-participation multiplier, base vs effective
APY, network-health classification). -/
def CalculateRewards (state : types.NetworkState) (participationRate : ℚ) :
    types.RewardResults :=
  let validatorCount := state.Validators.length
  let baseReward := GetBaseReward state 0
  let sqrtTotal := IntegerSquareRoot state.TotalActiveBalance
  let sourceReward := baseReward * config.TIMELY_SOURCE_WEIGHT % U64 / config.WEIGHT_DENOMINATOR
  let targetReward := baseReward * config.TIMELY_TARGET_WEIGHT % U64 / config.WEIGHT_DENOMINATOR
  let headReward := baseReward * config.TIMELY_HEAD_WEIGHT % U64 / config.WEIGHT_DENOMINATOR
  let attestationReward := (sourceReward + targetReward + headReward) % U64
  let proposerProbability : ℚ := 1 / (validatorCount : ℚ)
  let proposalsPerEpoch := proposerProbability
  let proposalsPerYear := proposalsPerEpoch * (config.EPOCHS_PER_YEAR : ℚ)
  let attestationInclusionReward := CalculateAttestationInclusionReward state participationRate
  let estimatedAttestationsPerBlock := EstimateAttestationsPerBlock state
  let inclusionEffectivenessRate := CalculateInclusionEffectivenessRate participationRate
  let avgProposerReward : ℚ := (attestationInclusionReward : ℚ)
  let proposerRewardPerEpoch := avgProposerReward * proposerProbability
  let baseAttestationAnnual := (attestationReward : ℚ) * (config.EPOCHS_PER_YEAR : ℚ)
  let baseProposerAnnual := proposerRewardPerEpoch * (config.EPOCHS_PER_YEAR : ℚ)
  let baseTotalAnnual := baseAttestationAnnual + baseProposerAnnual
  let baseAPY := baseTotalAnnual / (config.MAX_EFFECTIVE_BALANCE : ℚ) * 100
  let participationMultiplier := 1 / participationRate
  let attestationAnnual := baseAttestationAnnual * participationMultiplier
  let proposerAnnual := baseProposerAnnual * participationMultiplier
  let totalAnnual := attestationAnnual + proposerAnnual
  let effectiveAPY := totalAnnual / (config.MAX_EFFECTIVE_BALANCE : ℚ) * 100
  let inactivityLeakActive := decide (participationRate < (0.6667 : ℚ))
  let networkHealthWarning :=
    if participationRate < (0.3333 : ℚ) then
      "CRITICAL: Network participation below 33.33% - chain cannot finalize"
    else if participationRate < (0.6667 : ℚ) then
      "WARNING: Network participation below 66.67% - inactivity leak active"
    else if participationRate < (0.8 : ℚ) then
      "CAUTION: Network participation below 80% - reduced security"
    else ""
  { ValidatorCount := validatorCount
    TotalStaked := state.TotalActiveBalance
    ParticipationRate := participationRate
    SqrtTotalBalance := sqrtTotal
    BaseRewardPerEpoch := baseReward
    SourceReward := sourceReward
    TargetReward := targetReward
    HeadReward := headReward
    AttestationRewardPerEpoch := attestationReward
    ProposerProbability := proposerProbability
    ExpectedProposalsPerYear := proposalsPerYear
    AvgProposerRewardPerBlock := avgProposerReward
    ProposerRewardPerEpoch := proposerRewardPerEpoch
    EstimatedAttestationsPerBlock := estimatedAttestationsPerBlock
    AttestationInclusionReward := attestationInclusionReward
    InclusionEffectivenessRate := inclusionEffectivenessRate
    AttestationRewardsAnnual := attestationAnnual
    ProposerRewardsAnnual := proposerAnnual
    TotalAnnualRewards := totalAnnual
    APY := effectiveAPY
    DailyRewards := totalAnnual / (365.25 : ℚ)
    WeeklyRewards := totalAnnual / (52.18 : ℚ)
    MonthlyRewards := totalAnnual / 12
    ParticipationMultiplier := participationMultiplier
    BaseAPY := baseAPY
    EffectiveAPY := effectiveAPY
    InactivityLeakActive := inactivityLeakActive
    NetworkHealthWarning := networkHealthWarning }

/-- CalculateAttestationReward — internal/calculator.  The Go accumulation
`reward += ...` is unrolled into successive bindings. -/
def CalculateAttestationReward (state : types.NetworkState) (validatorIndex : ℕ)
    (correctSource correctTarget correctHead : Bool) (inclusionDelay : ℕ) : ℕ :=
  let baseReward := GetBaseReward state validatorIndex
  let reward0 : ℕ := 0
  let reward1 := if correctSource then
    (reward0 + baseReward * config.TIMELY_SOURCE_WEIGHT % U64 / config.WEIGHT_DENOMINATOR) % U64
    else reward0
  let reward2 := if correctTarget then
    (reward1 + baseReward * config.TIMELY_TARGET_WEIGHT % U64 / config.WEIGHT_DENOMINATOR) % U64
    else reward1
  let reward3 := if correctHead then
    (reward2 + baseReward * config.TIMELY_HEAD_WEIGHT % U64 / config.WEIGHT_DENOMINATOR) % U64
    else reward2
  if config.MIN_ATTESTATION_INCLUSION_DELAY < inclusionDelay ∧ 0 < reward3 then
    reward3 * config.PROPOSER_REWARD_QUOTIENT % U64 /
      ((config.PROPOSER_REWARD_QUOTIENT + inclusionDelay -
        config.MIN_ATTESTATION_INCLUSION_DELAY) % U64)
  else reward3

end calculator

/-! ## Penalty engine — internal/calculator/penalties.go -/

namespace calculator

/-- GetInactivityPenalty — internal/calculator/penalties.go. -/
def GetInactivityPenalty (state : types.NetworkState) (validatorIndex : ℕ) : ℕ :=
  let validator := state.Validators.getD validatorIndex types.defaultValidator
  if state.CurrentEpoch ≤ (state.FinalizedEpoch + config.MIN_ATTESTATION_INCLUSION_DELAY) % U64
  then 0
  else
    let forkConfig := config.GetForkConfig state.CurrentFork
    validator.EffectiveBalance * validator.InactivityScore % U64 /
      (config.INACTIVITY_SCORE_BIAS * forkConfig.InactivityPenaltyQuotient)

/-- CalculateInactivityScore — internal/calculator/penalties.go. -/
def CalculateInactivityScore (previousScore : ℕ) (isActive isFinalized : Bool) : ℕ :=
  if isFinalized then
    if 0 < previousScore then previousScore - min 1 previousScore else 0
  else if !isActive then (previousScore + config.INACTIVITY_SCORE_BIAS) % U64
  else (previousScore + 1) % U64

/-- CalculateSlashingPenalties — internal/calculator/penalties.go. -/
def CalculateSlashingPenalties (state : types.NetworkState) (validatorIndex : ℕ)
    (totalSlashedBalance : ℕ) : types.SlashingResults :=
  let validator := state.Validators.getD validatorIndex types.defaultValidator
  let forkConfig := config.GetForkConfig state.CurrentFork
  let initialPenalty := validator.EffectiveBalance / forkConfig.MinSlashingPenaltyQuotient
  let proportionalPenalty :=
    validator.EffectiveBalance *
      min (totalSlashedBalance * forkConfig.ProportionalSlashingMultiplier % U64)
        state.TotalActiveBalance % U64 /
      state.TotalActiveBalance
  let totalPenalty := (initialPenalty + proportionalPenalty) % U64
  let whistleblowerReward := validator.EffectiveBalance / config.WHISTLEBLOWER_REWARD_QUOTIENT
  let proposerReward := whistleblowerReward / config.PROPOSER_REWARD_QUOTIENT
  { InitialPenalty := initialPenalty
    ProportionalPenalty := proportionalPenalty
    TotalPenalty := totalPenalty
    PercentageOfStake := (totalPenalty : ℚ) / (validator.EffectiveBalance : ℚ) * 100
    WhistleblowerReward := whistleblowerReward
    ProposerReward := proposerReward }

end calculator

/-! ## Library calculator — pkg/rewards/calculator.go -/

namespace rewards

/-- Calculator — pkg/rewards/calculator.go. -/
structure Calculator where
  BaseRewardFactor : ℕ
  TotalActiveBalance : ℕ

/-- Calculator.CalculateBaseReward — pkg/rewards/calculator.go.  The
`MAX_EFFECTIVE_BALANCE` constant of package rewards is not among the given
sources; it is the protocol maximum, the same value as the config constant. -/
def Calculator.CalculateBaseReward (c : Calculator) (effectiveBalance : ℕ) : ℕ :=
  let clamped := if config.MAX_EFFECTIVE_BALANCE < effectiveBalance
    then config.MAX_EFFECTIVE_BALANCE else effectiveBalance
  clamped * c.BaseRewardFactor % U64 / calculator.IntegerSquareRoot c.TotalActiveBalance

end rewards

/-- Base reward as the claim C3 words it (second definition for the
refinement comparison): effective balance clamped to the maximum, times
`BASE_REWARD_FACTOR`, integer-divided by the integer square root of the total
active balance, with no further division. -/
def claimedBaseReward (effectiveBalance totalActiveBalance : ℕ) : ℕ :=
  min effectiveBalance config.MAX_EFFECTIVE_BALANCE * config.BASE_REWARD_FACTOR /
    Nat.sqrt totalActiveBalance

/-! ## Claims -/

open calculator types

/-- A one-validator network state with the given effective balance and total
active balance (epochs and fork as the CLI's `createNetworkState` sets them). -/
def singleValidatorState (b T : ℕ) : types.NetworkState :=
  { Validators := [{ types.defaultValidator with EffectiveBalance := b }]
    TotalActiveBalance := T
    CurrentEpoch := 1000
    FinalizedEpoch := 998
    JustifiedEpoch := 0
    CurrentFork := "bellatrix"
    SlashingsPerEpoch := [] }

/-- C2: for every 64-bit `n`, `IntegerSquareRoot n` is exactly the floor
square root — it equals `Nat.sqrt n`, satisfies the two-sided square bound,
and `IntegerSquareRoot 0 = 0`. -/
theorem C2_IntegerSquareRoot_exact (n : ℕ) (hn : n < 2 ^ 64) :
    IntegerSquareRoot n = Nat.sqrt n ∧
    IntegerSquareRoot n * IntegerSquareRoot n ≤ n ∧
    n < (IntegerSquareRoot n + 1) * (IntegerSquareRoot n + 1) ∧
    IntegerSquareRoot 0 = 0 := by
  rw [IntegerSquareRoot_eq hn]
  exact ⟨rfl, Nat.sqrt_le n, Nat.lt_succ_sqrt n, rfl⟩

/-- Witness for C2 at a large concrete input. -/
theorem C2_witness :
    123456789123456789 < 2 ^ 64 ∧
    IntegerSquareRoot 123456789123456789 = Nat.sqrt 123456789123456789 :=
  ⟨by norm_num, (C2_IntegerSquareRoot_exact 123456789123456789 (by norm_num)).1⟩

/-- C3 counterexample: `GetBaseReward` does not clamp the effective balance.
For a validator holding twice the maximum effective balance the computed base
reward differs from the claimed clamped formula. -/
theorem C3_counterexample :
    GetBaseReward (singleValidatorState 64000000000 1024) 0 ≠
      claimedBaseReward 64000000000 1024 := by
  have hsq : Nat.sqrt 1024 = 32 := by
    rw [(by norm_num : (1024 : ℕ) = 32 * 32), Nat.sqrt_eq]
  have hisr : IntegerSquareRoot 1024 = 32 := by
    rw [IntegerSquareRoot_eq (by norm_num), hsq]
  simp only [GetBaseReward, claimedBaseReward, singleValidatorState, List.getD_cons_zero]
  rw [hisr, hsq]
  norm_num [config.BASE_REWARD_FACTOR, config.MAX_EFFECTIVE_BALANCE, U64]

/-- C3 amended: the claimed clamped formula holds for `GetBaseReward` only
when the validator's balance is at most the maximum (the function itself
never clamps), while the library calculator `Calculator.CalculateBaseReward`
clamps and realises the claimed formula for every balance; neither divides by
`BASE_REWARDS_PER_EPOCH`. -/
theorem C3_base_reward_amended (b T : ℕ) (hb : b ≤ config.MAX_EFFECTIVE_BALANCE)
    (hT : 0 < T) (hT64 : T < 2 ^ 64) (c : rewards.Calculator) (b2 : ℕ)
    (hc1 : c.BaseRewardFactor = config.BASE_REWARD_FACTOR)
    (hc2 : c.TotalActiveBalance = T) :
    GetBaseReward (singleValidatorState b T) 0 = claimedBaseReward b T ∧
    rewards.Calculator.CalculateBaseReward c b2 = claimedBaseReward b2 T := by
  have hmax : config.MAX_EFFECTIVE_BALANCE = 32000000000 := rfl
  have hfac : config.BASE_REWARD_FACTOR = 64 := rfl
  constructor
  · simp only [GetBaseReward, claimedBaseReward, singleValidatorState, List.getD_cons_zero]
    rw [IntegerSquareRoot_eq hT64]
    have hmin : min b config.MAX_EFFECTIVE_BALANCE = b := min_eq_left hb
    rw [hmin]
    have hov : b * config.BASE_REWARD_FACTOR < U64 := by
      have : b * config.BASE_REWARD_FACTOR ≤ 32000000000 * 64 := by
        apply mul_le_mul' _ le_rfl
        omega
      have h2 : (32000000000 * 64 : ℕ) < U64 := by norm_num [U64]
      omega
    rw [Nat.mod_eq_of_lt hov]
  · simp only [rewards.Calculator.CalculateBaseReward, claimedBaseReward, hc1, hc2]
    rw [IntegerSquareRoot_eq hT64]
    have hclamp : (if config.MAX_EFFECTIVE_BALANCE < b2 then config.MAX_EFFECTIVE_BALANCE
        else b2) = min b2 config.MAX_EFFECTIVE_BALANCE := by
      rcases le_or_lt b2 config.MAX_EFFECTIVE_BALANCE with h | h
      · rw [if_neg (not_lt.mpr h), min_eq_left h]
      · rw [if_pos h, min_eq_right h.le]
    rw [hclamp]
    have hov : min b2 config.MAX_EFFECTIVE_BALANCE * config.BASE_REWARD_FACTOR < U64 := by
      have h1 : min b2 config.MAX_EFFECTIVE_BALANCE ≤ 32000000000 := by
        rw [← hmax]
        exact min_le_right _ _
      have : min b2 config.MAX_EFFECTIVE_BALANCE * config.BASE_REWARD_FACTOR ≤
          32000000000 * 64 := by
        apply mul_le_mul' h1
        rw [hfac]
      have h2 : (32000000000 * 64 : ℕ) < U64 := by norm_num [U64]
      omega
    rw [Nat.mod_eq_of_lt hov]

/-- Witness for C3's amended claim at concrete inputs. -/
theorem C3_amended_witness :
    GetBaseReward (singleValidatorState 31000000000 1024) 0 =
      claimedBaseReward 31000000000 1024 ∧
    rewards.Calculator.CalculateBaseReward ⟨64, 1024⟩ 64000000000 =
      claimedBaseReward 64000000000 1024 :=
  C3_base_reward_amended 31000000000 1024 (by norm_num [config.MAX_EFFECTIVE_BALANCE])
    (by norm_num) (by norm_num) ⟨64, 1024⟩ 64000000000 rfl rfl

/-- C9: the base reward is non-decreasing in the effective balance and
non-increasing in the total active balance, both for `GetBaseReward` (within
the uint64-safe balance range) and for the clamped library
`Calculator.CalculateBaseReward`. -/
theorem C9_base_reward_monotone (b1 b2 b T1 T2 T : ℕ)
    (hb : b1 ≤ b2) (hb2 : b2 * config.BASE_REWARD_FACTOR < 2 ^ 64)
    (hbb : b * config.BASE_REWARD_FACTOR < 2 ^ 64)
    (hT : 0 < T) (hT64 : T < 2 ^ 64)
    (hT1 : 0 < T1) (hT12 : T1 ≤ T2) (hT264 : T2 < 2 ^ 64) :
    (GetBaseReward (singleValidatorState b1 T) 0 ≤
      GetBaseReward (singleValidatorState b2 T) 0 ∧
     GetBaseReward (singleValidatorState b T2) 0 ≤
      GetBaseReward (singleValidatorState b T1) 0) ∧
    (rewards.Calculator.CalculateBaseReward ⟨config.BASE_REWARD_FACTOR, T⟩ b1 ≤
      rewards.Calculator.CalculateBaseReward ⟨config.BASE_REWARD_FACTOR, T⟩ b2 ∧
     rewards.Calculator.CalculateBaseReward ⟨config.BASE_REWARD_FACTOR, T2⟩ b ≤
      rewards.Calculator.CalculateBaseReward ⟨config.BASE_REWARD_FACTOR, T1⟩ b) := by
  have hT164 : T1 < 2 ^ 64 := lt_of_le_of_lt hT12 hT264
  have hspos : 0 < Nat.sqrt T1 := Nat.sqrt_pos.mpr hT1
  have hsmono : Nat.sqrt T1 ≤ Nat.sqrt T2 := Nat.sqrt_le_sqrt hT12
  have hb1 : b1 * config.BASE_REWARD_FACTOR < 2 ^ 64 :=
    lt_of_le_of_lt (mul_le_mul' hb le_rfl) hb2
  constructor
  · constructor
    · simp only [GetBaseReward, singleValidatorState, List.getD_cons_zero]
      rw [IntegerSquareRoot_eq hT64]
      simp only [U64]
      rw [Nat.mod_eq_of_lt hb1, Nat.mod_eq_of_lt hb2]
      exact Nat.div_le_div_right (mul_le_mul' hb le_rfl)
    · simp only [GetBaseReward, singleValidatorState, List.getD_cons_zero]
      rw [IntegerSquareRoot_eq hT264, IntegerSquareRoot_eq hT164]
      simp only [U64]
      rw [Nat.mod_eq_of_lt hbb]
      exact Nat.div_le_div_left hsmono hspos
  · have hclamp : ∀ y : ℕ, (if config.MAX_EFFECTIVE_BALANCE < y
        then config.MAX_EFFECTIVE_BALANCE else y) ≤ 32000000000 := by
      intro y
      have : config.MAX_EFFECTIVE_BALANCE = 32000000000 := rfl
      split <;> omega
    have hclampmono : (if config.MAX_EFFECTIVE_BALANCE < b1
        then config.MAX_EFFECTIVE_BALANCE else b1) ≤
        (if config.MAX_EFFECTIVE_BALANCE < b2
        then config.MAX_EFFECTIVE_BALANCE else b2) := by
      split <;> split <;> omega
    have hov : ∀ y : ℕ, (if config.MAX_EFFECTIVE_BALANCE < y
        then config.MAX_EFFECTIVE_BALANCE else y) * config.BASE_REWARD_FACTOR < U64 := by
      intro y
      have h1 := hclamp y
      have hfac : config.BASE_REWARD_FACTOR = 64 := rfl
      have : (if config.MAX_EFFECTIVE_BALANCE < y
          then config.MAX_EFFECTIVE_BALANCE else y) * config.BASE_REWARD_FACTOR ≤
          32000000000 * 64 := by
        apply mul_le_mul' h1
        rw [hfac]
      have h2 : (32000000000 * 64 : ℕ) < U64 := by norm_num [U64]
      omega
    constructor
    · simp only [rewards.Calculator.CalculateBaseReward]
      rw [IntegerSquareRoot_eq hT64]
      rw [Nat.mod_eq_of_lt (hov b1), Nat.mod_eq_of_lt (hov b2)]
      exact Nat.div_le_div_right (mul_le_mul' hclampmono le_rfl)
    · simp only [rewards.Calculator.CalculateBaseReward]
      rw [IntegerSquareRoot_eq hT264, IntegerSquareRoot_eq hT164]
      rw [Nat.mod_eq_of_lt (hov b)]
      exact Nat.div_le_div_left hsmono hspos

/-- Witness for C9 at concrete inputs. -/
theorem C9_witness :
    GetBaseReward (singleValidatorState 16000000000 1024) 0 ≤
      GetBaseReward (singleValidatorState 32000000000 1024) 0 ∧
    GetBaseReward (singleValidatorState 32000000000 4096) 0 ≤
      GetBaseReward (singleValidatorState 32000000000 1024) 0 :=
  ⟨((C9_base_reward_monotone 16000000000 32000000000 32000000000 1024 4096 1024
      (by norm_num) (by norm_num [config.BASE_REWARD_FACTOR])
      (by norm_num [config.BASE_REWARD_FACTOR]) (by norm_num) (by norm_num)
      (by norm_num) (by norm_num) (by norm_num)).1).1,
   ((C9_base_reward_monotone 16000000000 32000000000 32000000000 1024 4096 1024
      (by norm_num) (by norm_num [config.BASE_REWARD_FACTOR])
      (by norm_num [config.BASE_REWARD_FACTOR]) (by norm_num) (by norm_num)
      (by norm_num) (by norm_num) (by norm_num)).1).2⟩

/-- C6: evaluation of the slashing-penalty code at mainnet-scale balances.
With one 32-ETH validator (total active balance 32000000000 gwei, bellatrix
fork) and the whole stake slashed, the uint64 product
`effective_balance * min(total_slashed * 3, total_active_balance)` wraps
modulo `2 ^ 64`, so the code returns proportional penalty 294658623 gwei
instead of the 32000000000 gwei demanded by the claimed formula; the
non-overflowing components (initial penalty, whistleblower reward, proposer
cut) do match the claimed quotient formulas at this input. -/
theorem C6_slashing_overflow_eval :
    (CalculateSlashingPenalties (singleValidatorState 32000000000 32000000000) 0
      32000000000).ProportionalPenalty = 294658623 ∧
    294658623 ≠ 32000000000 * min (32000000000 * 3) 32000000000 / 32000000000 ∧
    (CalculateSlashingPenalties (singleValidatorState 32000000000 32000000000) 0
      32000000000).InitialPenalty = 32000000000 / 32 ∧
    (CalculateSlashingPenalties (singleValidatorState 32000000000 32000000000) 0
      32000000000).WhistleblowerReward =
      32000000000 / config.WHISTLEBLOWER_REWARD_QUOTIENT ∧
    (CalculateSlashingPenalties (singleValidatorState 32000000000 32000000000) 0
      32000000000).ProposerReward =
      32000000000 / config.WHISTLEBLOWER_REWARD_QUOTIENT / config.PROPOSER_REWARD_QUOTIENT :=
  ⟨rfl, by norm_num, rfl, rfl, rfl⟩

/-- C7: the one-step inactivity-score recurrence: finalized epochs decrease
the score by `min 1 score` (clamped at zero), non-finalized inactive epochs
add `INACTIVITY_SCORE_BIAS`, non-finalized active epochs add 1; ten
non-finalized inactive steps from 0 reach `10 * INACTIVITY_SCORE_BIAS`, and a
following finalized step lands exactly one below that, not at zero. -/
theorem C7_inactivity_score_recurrence (previousScore : ℕ) (isActive isFinalized : Bool)
    (hov : previousScore + config.INACTIVITY_SCORE_BIAS < 2 ^ 64) :
    (isFinalized = true →
      CalculateInactivityScore previousScore isActive isFinalized =
        previousScore - min 1 previousScore) ∧
    (isFinalized = false → isActive = false →
      CalculateInactivityScore previousScore isActive isFinalized =
        previousScore + config.INACTIVITY_SCORE_BIAS) ∧
    (isFinalized = false → isActive = true →
      CalculateInactivityScore previousScore isActive isFinalized = previousScore + 1) ∧
    (fun s => CalculateInactivityScore s false false)^[10] 0 =
      10 * config.INACTIVITY_SCORE_BIAS ∧
    CalculateInactivityScore (10 * config.INACTIVITY_SCORE_BIAS) false true =
      10 * config.INACTIVITY_SCORE_BIAS - 1 ∧
    CalculateInactivityScore (10 * config.INACTIVITY_SCORE_BIAS) false true ≠ 0 := by
  refine ⟨?_, ?_, ?_, by decide, by decide, by decide⟩
  · intro hf
    subst hf
    simp only [CalculateInactivityScore, if_true]
    rcases Nat.eq_zero_or_pos previousScore with rfl | hp
    · norm_num
    · rw [if_pos hp]
  · intro hf ha
    subst hf
    subst ha
    simp only [CalculateInactivityScore, Bool.false_eq_true, if_false, Bool.not_false,
      if_true]
    apply Nat.mod_eq_of_lt
    simpa [U64] using hov
  · intro hf ha
    subst hf
    subst ha
    simp only [CalculateInactivityScore, Bool.false_eq_true, if_false, Bool.not_true]
    apply Nat.mod_eq_of_lt
    have hov4 : previousScore + 4 < 2 ^ 64 := by
      simpa [config.INACTIVITY_SCORE_BIAS] using hov
    simp only [U64]
    omega

/-- Witness for C7 at a concrete score. -/
theorem C7_witness :
    5 + config.INACTIVITY_SCORE_BIAS < 2 ^ 64 ∧
    CalculateInactivityScore 5 false false = 5 + config.INACTIVITY_SCORE_BIAS :=
  ⟨by norm_num [config.INACTIVITY_SCORE_BIAS],
   (C7_inactivity_score_recurrence 5 false false
      (by norm_num [config.INACTIVITY_SCORE_BIAS])).2.1 rfl rfl⟩

/-- C8: the inactivity-leak penalty is `effective_balance * inactivity_score
/ (INACTIVITY_SCORE_BIAS * fork quotient)` when the current epoch is beyond
`finalized + MIN_ATTESTATION_INCLUSION_DELAY`, is exactly zero otherwise, and
every unrecognized fork name resolves to the bellatrix (default) config. -/
theorem C8_inactivity_penalty (state : types.NetworkState) (i : ℕ)
    (hi : i < state.Validators.length)
    (hov : (state.Validators.getD i types.defaultValidator).EffectiveBalance *
      (state.Validators.getD i types.defaultValidator).InactivityScore < 2 ^ 64)
    (hfin : state.FinalizedEpoch + config.MIN_ATTESTATION_INCLUSION_DELAY < 2 ^ 64) :
    (state.FinalizedEpoch + config.MIN_ATTESTATION_INCLUSION_DELAY < state.CurrentEpoch →
      GetInactivityPenalty state i =
        (state.Validators.getD i types.defaultValidator).EffectiveBalance *
          (state.Validators.getD i types.defaultValidator).InactivityScore /
          (config.INACTIVITY_SCORE_BIAS *
            (config.GetForkConfig state.CurrentFork).InactivityPenaltyQuotient)) ∧
    (state.CurrentEpoch ≤ state.FinalizedEpoch + config.MIN_ATTESTATION_INCLUSION_DELAY →
      GetInactivityPenalty state i = 0) ∧
    (∀ fork : String, fork ≠ "phase0" → fork ≠ "altair" → fork ≠ "bellatrix" →
      fork ≠ "merge" → config.GetForkConfig fork = config.GetForkConfig "bellatrix") := by
  have hmod : (state.FinalizedEpoch + config.MIN_ATTESTATION_INCLUSION_DELAY) % U64 =
      state.FinalizedEpoch + config.MIN_ATTESTATION_INCLUSION_DELAY := by
    apply Nat.mod_eq_of_lt
    simpa [U64] using hfin
  refine ⟨?_, ?_, ?_⟩
  · intro h
    simp only [GetInactivityPenalty, hmod]
    rw [if_neg (not_le.mpr h)]
    congr 1
    apply Nat.mod_eq_of_lt
    simpa [U64] using hov
  · intro h
    simp only [GetInactivityPenalty, hmod]
    rw [if_pos h]
  · intro fork h1 h2 h3 h4
    simp only [config.GetForkConfig]
    rw [if_neg h1, if_neg h2, if_neg (not_or.mpr ⟨h3, h4⟩)]
    rfl

/-- Network state used in the C8 witness: one validator at the maximum
balance with inactivity score 40, two epochs past finality. -/
def c8State : types.NetworkState :=
  { Validators := [{ types.defaultValidator with
      EffectiveBalance := 32000000000, InactivityScore := 40 }]
    TotalActiveBalance := 32000000000
    CurrentEpoch := 1000
    FinalizedEpoch := 998
    JustifiedEpoch := 0
    CurrentFork := "bellatrix"
    SlashingsPerEpoch := [] }

/-- Witness for C8 at a concrete state, in both the leaking and the
finalized regime. -/
theorem C8_witness :
    GetInactivityPenalty c8State 0 = 9536 ∧
    GetInactivityPenalty { c8State with CurrentEpoch := 999 } 0 = 0 :=
  ⟨((C8_inactivity_penalty c8State 0 (by decide) (by decide) (by decide)).1
      (by decide)).trans (by decide),
   (C8_inactivity_penalty { c8State with CurrentEpoch := 999 } 0 (by decide) (by decide)
      (by decide)).2.1 (by decide)⟩

/-- Scaling step of the inclusion-delay branch, abstracted over the on-time
reward value: the guard `reward > 0` changes nothing, because a zero reward
is fixed by the rescaling. -/
lemma delay_scale (E dd : ℕ) (hdd : 1 < dd) :
    (if 1 < dd ∧ 0 < E then E * 8 % U64 / ((8 + dd - 1) % U64) else E) =
    E * 8 % U64 / ((8 + dd - 1) % U64) := by
  split
  · rfl
  · rename_i h
    have hE : E = 0 := by omega
    subst hE
    simp

/-- The delay branch of `CalculateAttestationReward` rescales the on-time
reward (the value of the function at the minimal inclusion delay). -/
lemma attestation_delay_formula (state : types.NetworkState) (i : ℕ)
    (cs ct ch : Bool) (dd : ℕ)
    (hdd : config.MIN_ATTESTATION_INCLUSION_DELAY < dd) :
    CalculateAttestationReward state i cs ct ch dd =
      CalculateAttestationReward state i cs ct ch config.MIN_ATTESTATION_INCLUSION_DELAY *
        config.PROPOSER_REWARD_QUOTIENT % U64 /
        ((config.PROPOSER_REWARD_QUOTIENT + dd -
          config.MIN_ATTESTATION_INCLUSION_DELAY) % U64) :=
  delay_scale (CalculateAttestationReward state i cs ct ch
    config.MIN_ATTESTATION_INCLUSION_DELAY) dd hdd

/-- C10: with an inclusion delay beyond the minimum, the attestation reward
is the on-time reward times `PROPOSER_REWARD_QUOTIENT`, integer-divided by
`PROPOSER_REWARD_QUOTIENT + delay - MIN_ATTESTATION_INCLUSION_DELAY`; it
never exceeds the on-time reward and is non-increasing in the delay. -/
theorem C10_attestation_inclusion_delay (state : types.NetworkState) (i : ℕ)
    (cs ct ch : Bool) (d d' : ℕ)
    (hi : i < state.Validators.length)
    (hd : config.MIN_ATTESTATION_INCLUSION_DELAY < d) (hdd : d ≤ d')
    (hd64 : d' + 7 < 2 ^ 64)
    (hov : CalculateAttestationReward state i cs ct ch
      config.MIN_ATTESTATION_INCLUSION_DELAY * config.PROPOSER_REWARD_QUOTIENT < 2 ^ 64) :
    CalculateAttestationReward state i cs ct ch d =
      CalculateAttestationReward state i cs ct ch config.MIN_ATTESTATION_INCLUSION_DELAY *
        config.PROPOSER_REWARD_QUOTIENT /
        (config.PROPOSER_REWARD_QUOTIENT + d - config.MIN_ATTESTATION_INCLUSION_DELAY) ∧
    CalculateAttestationReward state i cs ct ch d ≤
      CalculateAttestationReward state i cs ct ch config.MIN_ATTESTATION_INCLUSION_DELAY ∧
    CalculateAttestationReward state i cs ct ch d' ≤
      CalculateAttestationReward state i cs ct ch d := by
  have hMIN : config.MIN_ATTESTATION_INCLUSION_DELAY = 1 := rfl
  have hQ : config.PROPOSER_REWARD_QUOTIENT = 8 := rfl
  set R := CalculateAttestationReward state i cs ct ch
    config.MIN_ATTESTATION_INCLUSION_DELAY with hR
  have hovR : R * config.PROPOSER_REWARD_QUOTIENT < U64 := by
    simpa [U64] using hov
  have hmod1 : R * config.PROPOSER_REWARD_QUOTIENT % U64 =
      R * config.PROPOSER_REWARD_QUOTIENT := Nat.mod_eq_of_lt hovR
  have hdenom : ∀ e : ℕ, e + 7 < 2 ^ 64 →
      (config.PROPOSER_REWARD_QUOTIENT + e - config.MIN_ATTESTATION_INCLUSION_DELAY) % U64 =
      config.PROPOSER_REWARD_QUOTIENT + e - config.MIN_ATTESTATION_INCLUSION_DELAY := by
    intro e he
    apply Nat.mod_eq_of_lt
    simp only [U64, hMIN, hQ]
    omega
  have hform : ∀ e : ℕ, config.MIN_ATTESTATION_INCLUSION_DELAY < e → e + 7 < 2 ^ 64 →
      CalculateAttestationReward state i cs ct ch e =
        R * config.PROPOSER_REWARD_QUOTIENT /
          (config.PROPOSER_REWARD_QUOTIENT + e - config.MIN_ATTESTATION_INCLUSION_DELAY) := by
    intro e he he64
    rw [attestation_delay_formula state i cs ct ch e he, ← hR, hmod1, hdenom e he64]
  have hd64' : d + 7 < 2 ^ 64 := by omega
  have hfd := hform d hd hd64'
  have hfd' := hform d' (by omega) hd64
  refine ⟨hfd, ?_, ?_⟩
  · rw [hfd]
    have h88 : R * config.PROPOSER_REWARD_QUOTIENT / config.PROPOSER_REWARD_QUOTIENT = R :=
      Nat.mul_div_cancel R (by rw [hQ]; norm_num)
    calc R * config.PROPOSER_REWARD_QUOTIENT /
          (config.PROPOSER_REWARD_QUOTIENT + d - config.MIN_ATTESTATION_INCLUSION_DELAY) ≤
        R * config.PROPOSER_REWARD_QUOTIENT / config.PROPOSER_REWARD_QUOTIENT := by
          apply Nat.div_le_div_left
          · simp only [hMIN, hQ]
            omega
          · rw [hQ]
            norm_num
      _ = R := h88
  · rw [hfd, hfd']
    apply Nat.div_le_div_left
    · simp only [hMIN, hQ]
      omega
    · simp only [hMIN, hQ]
      omega

/-- Witness for C10 at a concrete state and delays 2 and 3. -/
theorem C10_witness :
    CalculateAttestationReward (singleValidatorState 32000000000 1024) 0 true true true 2 =
      CalculateAttestationReward (singleValidatorState 32000000000 1024) 0 true true true
        config.MIN_ATTESTATION_INCLUSION_DELAY * config.PROPOSER_REWARD_QUOTIENT /
        (config.PROPOSER_REWARD_QUOTIENT + 2 - config.MIN_ATTESTATION_INCLUSION_DELAY) ∧
    CalculateAttestationReward (singleValidatorState 32000000000 1024) 0 true true true 3 ≤
      CalculateAttestationReward (singleValidatorState 32000000000 1024) 0 true true true 2 :=
  ⟨(C10_attestation_inclusion_delay (singleValidatorState 32000000000 1024) 0 true true true
      2 3 (by decide) (by decide) (by decide) (by decide) (by decide)).1,
   (C10_attestation_inclusion_delay (singleValidatorState 32000000000 1024) 0 true true true
      2 3 (by decide) (by decide) (by decide) (by decide) (by decide)).2.2⟩

/-- C1: evaluation of `CalculateRewards` at the inputs the claim says must be
rejected.  The function has no error path at all (its result type carries no
error; no InvalidArgument exists anywhere in the engine): at
`total_active_balance = 0` it still produces a result whose square-root
denominator is 0 (the Go original hits an integer division by zero and
panics at `GetBaseReward`; the embedding's `x / 0 = 0` convention makes the
field 0), and at `participation_rate = 0` the participation multiplier is
the unguarded `1 / 0` (IEEE `+Inf` in Go). -/
theorem C1_no_invalid_argument_failure :
    (CalculateRewards (singleValidatorState 32000000000 0) (1 / 2)).SqrtTotalBalance = 0 ∧
    (CalculateRewards (singleValidatorState 32000000000 0) (1 / 2)).BaseRewardPerEpoch = 0 ∧
    (CalculateRewards (singleValidatorState 32000000000 0) 0).ParticipationMultiplier =
      1 / 0 := by
  refine ⟨rfl, rfl, rfl⟩

/-- C4: the effective APY reported by `CalculateRewards` is exactly the base
(100%-participation) APY divided by the participation rate, and the reported
participation multiplier is exactly its inverse. -/
theorem C4_participation_multiplier (state : types.NetworkState) (p : ℚ)
    (hp : 0 < p) (hp1 : p ≤ 1) :
    (CalculateRewards state p).EffectiveAPY = (CalculateRewards state p).BaseAPY / p ∧
    (CalculateRewards state p).ParticipationMultiplier = 1 / p := by
  have hp0 : p ≠ 0 := ne_of_gt hp
  have hM : (config.MAX_EFFECTIVE_BALANCE : ℚ) ≠ 0 := by
    norm_num [config.MAX_EFFECTIVE_BALANCE]
  constructor
  · simp only [CalculateRewards]
    ring
  · rfl

/-- Witness for C4 at a concrete state and rate 1/2 (multiplier exactly 2). -/
theorem C4_witness :
    (CalculateRewards (singleValidatorState 32000000000 1024) (1 / 2)).EffectiveAPY =
      (CalculateRewards (singleValidatorState 32000000000 1024) (1 / 2)).BaseAPY / (1 / 2) ∧
    (CalculateRewards (singleValidatorState 32000000000 1024) (1 / 2)).ParticipationMultiplier =
      1 / (1 / 2) :=
  C4_participation_multiplier (singleValidatorState 32000000000 1024) (1 / 2)
    (by norm_num) (by norm_num)

/-- C5 counterexample: at participation rate 0.3333 — which is strictly below
1/3 — the code classifies the network in the inactivity-leak band, not the
critical band, because the code's thresholds are the literals 0.3333/0.6667,
not 1/3 and 2/3. -/
theorem C5_counterexample :
    (3333 / 10000 : ℚ) < 1 / 3 ∧
    (CalculateRewards (singleValidatorState 32000000000 1024)
        (3333 / 10000)).NetworkHealthWarning ≠
      "CRITICAL: Network participation below 33.33% - chain cannot finalize" := by
  constructor
  · norm_num
  · simp only [CalculateRewards]
    rw [if_neg (by norm_num : ¬((3333 / 10000 : ℚ) < 0.3333)),
      if_pos (by norm_num : (3333 / 10000 : ℚ) < 0.6667)]
    decide

/-- C5 amended: the health classification of `CalculateRewards`, with the
bands delimited by the code's literal thresholds 0.3333, 0.6667 and 0.8
(so p = 1/3 and p = 2/3 both fall in the inactivity-leak band). -/
theorem C5_health_bands_amended (state : types.NetworkState) (p : ℚ) :
    (p < 0.3333 →
      (CalculateRewards state p).NetworkHealthWarning =
        "CRITICAL: Network participation below 33.33% - chain cannot finalize") ∧
    (0.3333 ≤ p → p < 0.6667 →
      (CalculateRewards state p).NetworkHealthWarning =
        "WARNING: Network participation below 66.67% - inactivity leak active") ∧
    (0.6667 ≤ p → p < 0.8 →
      (CalculateRewards state p).NetworkHealthWarning =
        "CAUTION: Network participation below 80% - reduced security") ∧
    (0.8 ≤ p → (CalculateRewards state p).NetworkHealthWarning = "") := by
  refine ⟨?_, ?_, ?_, ?_⟩
  · intro h
    simp only [CalculateRewards]
    rw [if_pos h]
  · intro h1 h2
    simp only [CalculateRewards]
    rw [if_neg (not_lt.mpr h1), if_pos h2]
  · intro h1 h2
    simp only [CalculateRewards]
    rw [if_neg (not_lt.mpr (by linarith)), if_neg (not_lt.mpr h1), if_pos h2]
  · intro h
    simp only [CalculateRewards]
    rw [if_neg (not_lt.mpr (by linarith)), if_neg (not_lt.mpr (by linarith)),
      if_neg (not_lt.mpr h)]

/-- Witness for C5's amended bands: 1/2 lies in the inactivity-leak band, and
2/3 also does (not in the caution band). -/
theorem C5_amended_witness :
    (CalculateRewards (singleValidatorState 32000000000 1024)
      (1 / 2)).NetworkHealthWarning =
      "WARNING: Network participation below 66.67% - inactivity leak active" ∧
    (CalculateRewards (singleValidatorState 32000000000 1024)
      (2 / 3)).NetworkHealthWarning =
      "WARNING: Network participation below 66.67% - inactivity leak active" :=
  ⟨(C5_health_bands_amended (singleValidatorState 32000000000 1024) (1 / 2)).2.1
      (by norm_num) (by norm_num),
   (C5_health_bands_amended (singleValidatorState 32000000000 1024) (2 / 3)).2.1
      (by norm_num) (by norm_num)⟩
